import Mathlib

/-!
Verification model of `src/objdictgen/nosis.py` (the XML pickling engine).
Python values, object identity and the module's functions are shallowly
embedded; machine floats are modelled as exact rationals (noted at each
definition where it matters).
-/

deriving instance DecidableEq for Except

namespace Nosis

/-! ## Exact rational arithmetic helpers.  All model arithmetic on `ℚ` is
expressed through `mkRat` and integer operations on the numerator and
denominator, so that every definition evaluates by kernel reduction. -/

/-- Negation of a rational. -/
def ratNeg (q : ℚ) : ℚ := mkRat (-q.num) q.den

/-- Multiply a rational by the signed power `10 ^ k`. -/
def ratScale10 (q : ℚ) (k : Int) : ℚ :=
  if 0 ≤ k then mkRat (q.num * (10 : Int) ^ k.toNat) q.den
  else mkRat q.num (q.den * 10 ^ (-k).toNat)

/-- Floor of a rational (its denominator is positive, so this is floored
integer division of the numerator by the denominator). -/
def ratFloor (q : ℚ) : Int := Int.fdiv q.num q.den

/-- Difference of two rationals. -/
def ratSub (a b : ℚ) : ℚ := mkRat (a.num * b.den - b.num * a.den) (a.den * b.den)

/-! ## Basic character helpers -/

/-- Decimal digit test, `\d` in the module's regexps (ASCII). -/
def isDigit (c : Char) : Bool := 48 ≤ c.toNat && c.toNat ≤ 57

/-- Octal digit test, `[0-7]` in `RE_OCT`. -/
def isOctDigit (c : Char) : Bool := 48 ≤ c.toNat && c.toNat ≤ 55

/-- Hex digit test, `[0-9a-fA-F]` in `RE_HEX`. -/
def isHexDigit (c : Char) : Bool :=
  isDigit c || (97 ≤ c.toNat && c.toNat ≤ 102) || (65 ≤ c.toNat && c.toNat ≤ 70)

/-- Sign characters, `[-+]` in the regexps. -/
def isSignChar (c : Char) : Bool := c == '-' || c == '+'

/-- Value of a decimal digit character. -/
def digitVal (c : Char) : Nat := c.toNat - 48

/-- Value of a hex digit character (`int(_, 16)` on one digit). -/
def hexDigitVal (c : Char) : Nat :=
  if isDigit c then digitVal c
  else if 97 ≤ c.toNat && c.toNat ≤ 102 then c.toNat - 97 + 10
  else c.toNat - 65 + 10

/-- The whitespace characters removed by Python's `str.strip()`
(ASCII part; the model does not cover non-ASCII Unicode spaces). -/
def pyWs (c : Char) : Bool :=
  c == ' ' || c == '\t' || c == '\n' || c == '\r' || c == '\x0b' || c == '\x0c'

/-- Model of `s.strip()`: drop leading and trailing whitespace. -/
def pyStrip (l : List Char) : List Char :=
  ((l.dropWhile pyWs).reverse.dropWhile pyWs).reverse

/-- Split a character list at the first character satisfying `p`:
`some (before, after)` with the splitting character removed, or `none`. -/
def splitAtChar (p : Char → Bool) : List Char → Option (List Char × List Char)
  | [] => none
  | c :: rest =>
    if p c then some ([], rest)
    else
      match splitAtChar p rest with
      | some (a, b) => some (c :: a, b)
      | none => none

/-! ## The regular expressions of nosis.py, lines 48-62, as full-match
predicates on the already-stripped input.  Each definition transcribes one
pattern; a comment quotes the pattern it embeds.  All the patterns are
anchored at the start by `re.match` and at the end by an explicit `$`
(equivalent to end-of-string here because `aton` strips trailing
whitespace, so no trailing newline can remain). -/

/-- Consume the optional leading `[-+]?` of a pattern. -/
def stripSign (l : List Char) : List Char :=
  match l with
  | c :: rest => if isSignChar c then rest else l
  | [] => []

/-- `RE_ZERO = [+-]?0$`. -/
def matchZERO (l : List Char) : Bool := stripSign l == ['0']

/-- `RE_INT`, i.e. `PAT_INT + '$'` with `PAT_INT = [-+]?[1-9]\d*`. -/
def matchINT (l : List Char) : Bool :=
  match stripSign l with
  | c :: rest => (49 ≤ c.toNat && c.toNat ≤ 57) && rest.all isDigit
  | [] => false

/-- `RE_LONG = [-+]?\d+[lL]$`. -/
def matchLONG (l : List Char) : Bool :=
  match (stripSign l).reverse with
  | c :: rest => (c == 'l' || c == 'L') && !rest.isEmpty && rest.all isDigit
  | [] => false

/-- The sub-pattern `(\d+)?[.]\d+|\d+[.]` of `PAT_FL`: a decimal point with
digits on at least one side.  For a full match the split can only be at the
unique dot, so splitting at the first dot is complete. -/
def matchDotted (l : List Char) : Bool :=
  match splitAtChar (· == '.') l with
  | none => false
  | some (a, b) =>
    (a.all isDigit && !b.isEmpty && b.all isDigit) ||
      (!a.isEmpty && a.all isDigit && b.isEmpty)

/-- The mantissa alternative `((\d+)?[.]\d+|\d+[.])|\d+` of `PAT_FL`. -/
def matchMantissa (l : List Char) : Bool :=
  matchDotted l || (!l.isEmpty && l.all isDigit)

/-- The exponent tail `[+-]?\d+`. -/
def matchSignedDigits (l : List Char) : Bool :=
  match stripSign l with
  | [] => false
  | d => d.all isDigit

/-- `RE_FLOAT`, i.e. `PAT_FL + '$'` with
`PAT_FL = [-+]?(((((\d+)?[.]\d+|\d+[.])|\d+)[eE][+-]?\d+)|((\d+)?[.]\d+|\d+[.]))`.
Neither the mantissa nor the exponent may contain `e`, so for a full match
the split can only be at the first `e`/`E`; without one, the dotted
alternative must match the whole body. -/
def matchFL (l : List Char) : Bool :=
  match splitAtChar (fun c => c == 'e' || c == 'E') (stripSign l) with
  | none => matchDotted (stripSign l)
  | some (m, e) => matchMantissa m && matchSignedDigits e

/-- `PAT_FLINT = (PAT_FL|PAT_INT)` as a full match. -/
def matchFLINT (l : List Char) : Bool := matchFL l || matchINT l

/-- `RE_COMPLEX`, i.e. `(PAT_FLINT)?[-+]PAT_FLINT[jJ]$`.  The separating
sign may sit at any position (the regexp engine backtracks), so the model
quantifies over every candidate split. -/
def matchCOMPLEX (l : List Char) : Bool :=
  match l.reverse with
  | [] => false
  | j :: rest =>
    (j == 'j' || j == 'J') &&
      (let body := rest.reverse
       (List.range body.length).any fun i =>
         isSignChar (body.getD i ' ') &&
           (let a := body.take i
            let b := body.drop (i + 1)
            (a.isEmpty || matchFLINT a) && matchFLINT b))

/-- `RE_COMPLEX2`, i.e. `(PAT_FLINT):(PAT_FLINT)$`.  `PAT_FLINT` matches no
colon, so the split can only be at the first colon. -/
def matchCOMPLEX2 (l : List Char) : Bool :=
  match splitAtChar (· == ':') l with
  | some (a, b) => matchFLINT a && matchFLINT b
  | none => false

/-- `RE_HEX = ([-+]?)(0[xX])([0-9a-fA-F]+)$`; returns
`some (group1 == '-', group 3)` on a match. -/
def matchHEX (l : List Char) : Option (Bool × List Char) :=
  let neg := l.head? == some '-'
  match stripSign l with
  | '0' :: x :: ds =>
    if (x == 'x' || x == 'X') && !ds.isEmpty && ds.all isHexDigit then some (neg, ds)
    else none
  | _ => none

/-- `RE_OCT = ([-+]?)(0)([0-7]+)$`; returns `some (group1 == '-', group 3)`
on a match. -/
def matchOCT (l : List Char) : Option (Bool × List Char) :=
  let neg := l.head? == some '-'
  match stripSign l with
  | '0' :: ds =>
    if !ds.isEmpty && ds.all isOctDigit then some (neg, ds)
    else none
  | _ => none

/-! ## Numeric values.  Python integers are `Int`.  Python floats are IEEE
doubles; the model represents a float by the exact rational it denotes, so
decimal literals evaluate to their exact value (where the source rounds to
the nearest double).  Every concrete value used in a theorem below is
exactly representable as a double, where model and source agree. -/

/-- Accumulate digit characters in the given base (`int(s, base)` on a
digit string). -/
def digitsToNat (base : Nat) (f : Char → Nat) (l : List Char) : Nat :=
  l.foldl (fun a c => a * base + f c) 0

/-- `int(s)` on an optionally signed decimal digit string.  Every call
site guards the argument by a regexp match, so it is never empty; the
empty case is junk. -/
def parseDecInt (l : List Char) : Int :=
  match l with
  | c :: rest =>
    if c == '-' then -(digitsToNat 10 digitVal rest : Int)
    else if c == '+' then (digitsToNat 10 digitVal rest : Int)
    else (digitsToNat 10 digitVal (c :: rest) : Int)
  | [] => (0 : Int)

/-- Exact value of a decimal literal from its parts: sign, integer digits,
fraction digits, decimal exponent. -/
def ratOfParts (neg : Bool) (ip fp : List Char) (ex : Int) : ℚ :=
  let m : Int := (digitsToNat 10 digitVal (ip ++ fp) : Nat)
  let q := ratScale10 (mkRat m 1) (ex - fp.length)
  if neg then ratNeg q else q

/-- Split a mantissa at its decimal point (integer digits, fraction digits). -/
def mantParts (m : List Char) : List Char × List Char :=
  match splitAtChar (· == '.') m with
  | some (a, b) => (a, b)
  | none => (m, [])

/-- Model of `float(s)` for the decimal literals accepted by the regexps:
the exact rational value of the literal (the source rounds it to the
nearest double). -/
def pyFloatLit (l : List Char) : ℚ :=
  let neg := l.head? == some '-'
  let body := stripSign l
  match splitAtChar (fun c => c == 'e' || c == 'E') body with
  | some (m, e) =>
    let (ip, fp) := mantParts m
    ratOfParts neg ip fp (parseDecInt e)
  | none =>
    let (ip, fp) := mantParts body
    ratOfParts neg ip fp 0

/-- Model of C `strtod` on the decimal numeric forms: parse an optional
sign, digits with an optional decimal point, and an optional well-formed
exponent (a malformed exponent makes `strtod` stop before the `e`).
Returns the exact value and the unconsumed suffix, or `none` when no
conversion is performed.  `inf`/`nan` forms are omitted: the only caller is
the model of `complex(s)` below, reached in `aton` under the `RE_COMPLEX`
guard, whose inputs consist of digits, signs, dots, `e` and `j` only. -/
def strtodNum (l : List Char) : Option (ℚ × List Char) :=
  let (neg, l1) :=
    match l with
    | '-' :: r => (true, r)
    | '+' :: r => (false, r)
    | _ => (false, l)
  let ip := l1.takeWhile isDigit
  let r1 := l1.dropWhile isDigit
  let (fp, r2) :=
    match r1 with
    | '.' :: r => (r.takeWhile isDigit, r.dropWhile isDigit)
    | _ => (([] : List Char), r1)
  if ip.isEmpty && fp.isEmpty then none
  else
    let (ex, r3) :=
      match r2 with
      | e :: r =>
        if e == 'e' || e == 'E' then
          match r with
          | s :: r' =>
            if isDigit s then (parseDecInt (r.takeWhile isDigit), r.dropWhile isDigit)
            else if isSignChar s && !(r'.takeWhile isDigit).isEmpty then
              (parseDecInt (s :: r'.takeWhile isDigit), r'.dropWhile isDigit)
            else ((0 : Int), e :: r)
          | [] => ((0 : Int), e :: r)
        else ((0 : Int), r2)
      | [] => ((0 : Int), r2)
    some (ratOfParts neg ip fp ex, r3)

/-- Model of CPython's `complex(s)` string parsing
(`complex_from_string_inner`): optional whitespace and brackets around one
of the forms `<float>`, `<float>j`, `<float><signed-float>j`,
`<float><sign>j`, `<sign>j`, `j`.  Returns `some (real, imag)` or `none`
for the `ValueError` case. -/
def complexFromString (l0 : List Char) : Option (ℚ × ℚ) :=
  let l1 := l0.dropWhile pyWs
  let (gotBracket, l) :=
    match l1 with
    | '(' :: r => (true, r.dropWhile pyWs)
    | _ => (false, l1)
  let core : Option (ℚ × ℚ × List Char) :=
    match strtodNum l with
    | some (z, s) =>
      match s with
      | c :: r =>
        if isSignChar c then
          match strtodNum (c :: r) with
          | some (y, s2) =>
            match s2 with
            | 'j' :: r2 => some (z, y, r2)
            | 'J' :: r2 => some (z, y, r2)
            | _ => none
          | none =>
            let y : ℚ := if c == '+' then mkRat 1 1 else mkRat (-1) 1
            match r with
            | 'j' :: r2 => some (z, y, r2)
            | 'J' :: r2 => some (z, y, r2)
            | _ => none
        else if c == 'j' || c == 'J' then some (mkRat 0 1, z, r)
        else some (z, mkRat 0 1, c :: r)
      | [] => some (z, mkRat 0 1, [])
    | none =>
      match l with
      | c :: r =>
        if isSignChar c then
          let y : ℚ := if c == '+' then mkRat 1 1 else mkRat (-1) 1
          match r with
          | 'j' :: r2 => some (mkRat 0 1, y, r2)
          | 'J' :: r2 => some (mkRat 0 1, y, r2)
          | _ => none
        else if c == 'j' || c == 'J' then some (mkRat 0 1, mkRat 1 1, r)
        else none
      | [] => none
  match core with
  | none => none
  | some (x, y, rest) =>
    let rest1 := rest.dropWhile pyWs
    if gotBracket then
      match rest1 with
      | ')' :: r => if (r.dropWhile pyWs).isEmpty then some (x, y) else none
      | _ => none
    else if rest1.isEmpty then some (x, y) else none

/-! ## Decimal rendering, `str(int)` and `%.17g` -/

/-- Digit character for a value below ten. -/
def digitChar (n : Nat) : Char := Char.ofNat (48 + n)

/-- Decimal digits of a natural number, most significant first; `fuel`
bounds the recursion depth (one digit per unit of fuel). -/
def natStrAux : Nat → Nat → List Char
  | 0, _ => []
  | fuel + 1, n =>
    if n < 10 then [digitChar n]
    else natStrAux fuel (n / 10) ++ [digitChar (n % 10)]

/-- Decimal digit string of a natural number (`str(n)` for `n ≥ 0`). -/
def natStr (n : Nat) : List Char := natStrAux (n + 1) n

/-- Model of Python `str` on an integer. -/
def intStr (n : Int) : List Char :=
  if n < 0 then '-' :: natStr n.natAbs else natStr n.natAbs

/-- String form of a natural number, used for the `id=`/`refid=` text. -/
def natToStr (n : Nat) : String := String.mk (natStr n)

/-- Floor-of-log10 of the positive rational `p / d` (`p, d > 0`), computed
from digit counts. -/
def decExpPQ (p d : Nat) : Int :=
  let k : Int := ((natStr p).length : Int) - ((natStr d).length : Int)
  -- p/d lies in (10^(k-1), 10^(k+1)); test whether 10^k ≤ p/d
  let tenKle : Bool :=
    if 0 ≤ k then decide (d * 10 ^ k.toNat ≤ p) else decide (d ≤ p * 10 ^ (-k).toNat)
  if tenKle then k else k - 1

/-- Round a rational to the nearest integer, ties to even — the rounding
C `printf` applies when converting the exact value to decimal digits. -/
def halfEvenRound (q : ℚ) : Int :=
  let f := ratFloor q
  let r := ratSub q (mkRat f 1)
  if Rat.blt r (mkRat 1 2) then f
  else if Rat.blt (mkRat 1 2) r then f + 1
  else if f % 2 = 0 then f else f + 1

/-- Exponent field of `%g` scientific notation: sign and at least two
digits. -/
def expString (ex : Int) : String :=
  let ds := natStr ex.natAbs
  let ds2 := if ds.length < 2 then '0' :: ds else ds
  (if ex < 0 then "-" else "+") ++ String.mk ds2

/-- `%.17g` of a positive rational: round to 17 significant digits, strip
trailing zeros, and use fixed notation for decimal exponents in `[-4, 16]`,
scientific notation otherwise. -/
def g17Pos (a : ℚ) : String :=
  let e0 := decExpPQ a.num.toNat a.den
  let n0 := (halfEvenRound (ratScale10 a (16 - e0))).toNat
  -- rounding can carry into an 18th digit
  let n := if n0 = 10 ^ 17 then 10 ^ 16 else n0
  let e := if n0 = 10 ^ 17 then e0 + 1 else e0
  let sig0 := (natStr n).reverse.dropWhile (· == '0') |>.reverse
  let sig := if sig0.isEmpty then ['0'] else sig0
  if e < -4 || 17 ≤ e then
    let mant :=
      match sig with
      | [] => ['0']
      | c :: [] => [c]
      | c :: rest => c :: '.' :: rest
    String.mk mant ++ "e" ++ expString e
  else if 0 ≤ e then
    if sig.length ≤ e.toNat + 1 then
      String.mk (sig ++ List.replicate (e.toNat + 1 - sig.length) '0')
    else
      String.mk (sig.take (e.toNat + 1) ++ '.' :: sig.drop (e.toNat + 1))
  else
    String.mk ('0' :: '.' :: (List.replicate (-(e + 1)).toNat '0' ++ sig))

/-- Model of the Python format `f"{num:.17g}"` on the exact rational value
of a double.  `ℚ` has no negative zero, infinities or NaNs; those doubles
are outside the model. -/
def g17 (q : ℚ) : String :=
  if q.num = 0 then "0"
  else if q.num < 0 then "-" ++ g17Pos (ratNeg q)
  else g17Pos q

/-! ## `aton` and `ntoa` (nosis.py lines 65-130) -/

/-- Python exception outcomes of `aton`: `valueError` is the `ValueError`
of line 109 (the spec's `FormatError`) and of a failed `complex(s)` call;
`indexError` is the `IndexError` raised by `s[0]` on an empty string. -/
inductive PyErr where
  | valueError
  | indexError
deriving DecidableEq

/-- Python numbers: integers exactly; floats and the two components of a
complex as the exact rationals they denote. -/
inductive PyNum where
  | int (n : Int)
  | float (q : ℚ)
  | complex (re im : ℚ)
deriving DecidableEq

/-- One pass of `while s[0] == '(' and s[-1] == ')': s = s[1:-1]`; `s[0]`
on an empty string raises `IndexError`.  `fuel` bounds the iteration count. -/
def parenStripAux : Nat → List Char → Except PyErr (List Char)
  | 0, _ => .error .indexError
  | fuel + 1, l =>
    match l with
    | [] => .error .indexError
    | c :: rest =>
      if c == '(' && (c :: rest).getLast? == some ')' then
        parenStripAux fuel rest.dropLast
      else .ok (c :: rest)

/-- The paren-stripping loop of `aton`; each iteration removes two
characters, so `l.length + 1` fuel never runs out before a base case. -/
def parenStrip (l : List Char) : Except PyErr (List Char) :=
  parenStripAux (l.length + 1) l

/-- Strip the trailing `l`/`L` characters (`s.rstrip('lL')`). -/
def dropTrailingLs (l : List Char) : List Char :=
  (l.reverse.dropWhile fun c => c == 'l' || c == 'L').reverse

/-- Apply the sign captured by `RE_HEX`/`RE_OCT` group 1 after conversion
(`if m.group(1) == '-': n = n * (-1)`). -/
def intApplyNeg (neg : Bool) (n : Nat) : Int :=
  if neg then -(n : Int) else (n : Int)

/-- The pattern cascade of `aton` on the massaged string (lines 71-109).
The branches appear in source order; the `if n < sys.maxsize: n = int(n)`
lines of the hex and octal branches do not change the value and are
omitted. -/
def atonCore (l : List Char) : Except PyErr PyNum :=
  if matchZERO l then .ok (.int 0)
  else if matchFL l then .ok (.float (pyFloatLit l))
  else if matchLONG l then .ok (.int (parseDecInt (dropTrailingLs l)))
  else if matchINT l then .ok (.int (parseDecInt l))
  else
    match matchHEX l with
    | some (neg, ds) => .ok (.int (intApplyNeg neg (digitsToNat 16 hexDigitVal ds)))
    | none =>
      match matchOCT l with
      | some (neg, ds) => .ok (.int (intApplyNeg neg (digitsToNat 8 digitVal ds)))
      | none =>
        if matchCOMPLEX l then
          match complexFromString l with
          | some (x, y) => .ok (.complex x y)
          | none => .error .valueError
        else if matchCOMPLEX2 l then
          match splitAtChar (· == ':') l with
          | some (a, b) => .ok (.complex (pyFloatLit a) (pyFloatLit b))
          | none => .error .valueError
        else .error .valueError

/-- Model of `aton` (lines 65-109): strip whitespace, strip balanced outer
parentheses (raising `IndexError` on an empty remainder), then try the
patterns in source order. -/
def aton (s : String) : Except PyErr PyNum :=
  match parenStrip (pyStrip s.data) with
  | .error e => .error e
  | .ok l => atonCore l

/-- Model of `ntoa` (lines 113-130).  Integers render as `str(num)`;
floats as `f"{num:.17g}"` with a `'.'` appended when neither `'.'` nor
`'e'` occurs; complexes as `f"{num.real:.17g}+{num.imag:.17g}j"`. -/
def ntoa : PyNum → String
  | .int n => String.mk (intStr n)
  | .float q =>
    let s := g17 q
    if !s.data.contains '.' && !s.data.contains 'e' then s ++ "." else s
  | .complex re im => g17 re ++ "+" ++ g17 im ++ "j"

/-! ## String escaping (nosis.py lines 133-178) -/

/-- Test whether `pat` is an initial segment of `l`. -/
def headSeg : List Char → List Char → Bool
  | [], _ => true
  | _ :: _, [] => false
  | p :: ps, c :: cs => p == c && headSeg ps cs

/-- Model of Python `s.replace(pat, rep)`: one left-to-right pass replacing
non-overlapping occurrences.  `fuel` bounds the scan (one unit per input
character suffices, since each step consumes at least one character when
`pat` is non-empty, as all the module's patterns are). -/
def replaceAux (pat rep : List Char) : Nat → List Char → List Char
  | 0, l => l
  | fuel + 1, l =>
    match l with
    | [] => []
    | c :: rest =>
      if !pat.isEmpty && headSeg pat l then
        rep ++ replaceAux pat rep fuel (l.drop pat.length)
      else c :: replaceAux pat rep fuel rest

/-- Python `s.replace(pat, rep)` on character lists. -/
def pyReplace (l pat rep : List Char) : List Char :=
  replaceAux pat rep l.length l

/-- The `XML_QUOTES` table (lines 133-139), in source order. -/
def XML_QUOTES : List (List Char × List Char) :=
  [("&".data, "&amp;".data), ("<".data, "&lt;".data), (">".data, "&gt;".data),
   ("\"".data, "&quot;".data), ("\x27".data, "&apos;".data)]

/-- The quoting loop of `safe_string`/`safe_content`: for each pair in
order, replace the character by its entity. -/
def xmlQuote (l : List Char) : List Char :=
  XML_QUOTES.foldl (fun s repl => pyReplace s repl.1 repl.2) l

/-- The unquoting loop of `unsafe_string`/`unsafe_content`: for each pair
in the same order, replace the entity by its character. -/
def xmlUnquote (l : List Char) : List Char :=
  XML_QUOTES.foldl (fun s repl => pyReplace s repl.2 repl.1) l

/-- Hexadecimal digit character (lower case) for a value below sixteen. -/
def hexChar (n : Nat) : Char :=
  if n < 10 then Char.ofNat (48 + n) else Char.ofNat (97 + (n - 10))

/-- CPython `repr` escaping of one character when the chosen quote is
`quote`: backslash-escape the backslash and the quote, use `\t`, `\n`,
`\r`, render other C0 controls and DEL as `\xXX`, keep everything else.
The model treats all characters at or above `0x80` as printable (CPython
escapes the non-printable ones among them as `\xXX`/`\uXXXX`/`\UXXXXXXXX`;
no theorem below evaluates the model on such characters). -/
def reprChar (quote c : Char) : List Char :=
  if c == '\\' then ['\\', '\\']
  else if c == quote then ['\\', quote]
  else if c == '\t' then ['\\', 't']
  else if c == '\n' then ['\\', 'n']
  else if c == '\r' then ['\\', 'r']
  else if c.toNat < 32 || c.toNat == 127 then
    ['\\', 'x', hexChar (c.toNat / 16 % 16), hexChar (c.toNat % 16)]
  else [c]

/-- CPython `repr(s)[1:-1]`: the quote character is `'` unless the string
contains `'` and no `"`, and the characters are escaped accordingly. -/
def pyReprInner (l : List Char) : List Char :=
  let quote := if l.contains '\x27' && !l.contains '"' then '"' else '\x27'
  (l.map (reprChar quote)).flatten

/-- Model of `safe_string` (lines 142-147): substitute the five XML
metacharacters, then apply Python `repr` without its enclosing quotes. -/
def safe_string (s : String) : String :=
  String.mk (pyReprInner (xmlQuote s.data))

/-- Escape handling of `ast.parse("'" + s + "'")` on the body `s` of a
single-quoted Python string literal.  Handled escapes: `\\`, `\'`, `\"`,
`\n`, `\t`, `\r`, `\xHH` (exactly two hex digits required), one- to
three-digit octal escapes, and the bell/backspace/formfeed/vertical-tab
singles; an unrecognized escape keeps the backslash; a raw newline,
carriage return or single quote inside the body is a `SyntaxError`
(`\uXXXX`-style escapes are omitted from the model: `unsafe_string`
replaces every quote before parsing, and no theorem below evaluates the
model on `\u` input).  `fuel` bounds the scan. -/
def litEvalAux : Nat → List Char → Except PyErr (List Char)
  | 0, _ => .error .valueError
  | _ + 1, [] => .ok []
  | fuel + 1, c :: rest =>
    if c == '\n' || c == '\r' || c == '\x27' then .error .valueError
    else if c == '\\' then
      match rest with
      | [] => .error .valueError
      | e :: rest2 =>
        if e == '\\' then
          match litEvalAux fuel rest2 with
          | .ok l => .ok ('\\' :: l)
          | .error err => .error err
        else if e == '\x27' then
          match litEvalAux fuel rest2 with
          | .ok l => .ok ('\x27' :: l)
          | .error err => .error err
        else if e == '"' then
          match litEvalAux fuel rest2 with
          | .ok l => .ok ('"' :: l)
          | .error err => .error err
        else if e == 'n' then
          match litEvalAux fuel rest2 with
          | .ok l => .ok ('\n' :: l)
          | .error err => .error err
        else if e == 't' then
          match litEvalAux fuel rest2 with
          | .ok l => .ok ('\t' :: l)
          | .error err => .error err
        else if e == 'r' then
          match litEvalAux fuel rest2 with
          | .ok l => .ok ('\r' :: l)
          | .error err => .error err
        else if e == 'a' then
          match litEvalAux fuel rest2 with
          | .ok l => .ok ('\x07' :: l)
          | .error err => .error err
        else if e == 'b' then
          match litEvalAux fuel rest2 with
          | .ok l => .ok ('\x08' :: l)
          | .error err => .error err
        else if e == 'f' then
          match litEvalAux fuel rest2 with
          | .ok l => .ok ('\x0c' :: l)
          | .error err => .error err
        else if e == 'v' then
          match litEvalAux fuel rest2 with
          | .ok l => .ok ('\x0b' :: l)
          | .error err => .error err
        else if e == 'x' then
          match rest2 with
          | h1 :: h2 :: rest3 =>
            if isHexDigit h1 && isHexDigit h2 then
              match litEvalAux fuel rest3 with
              | .ok l => .ok (Char.ofNat (hexDigitVal h1 * 16 + hexDigitVal h2) :: l)
              | .error err => .error err
            else .error .valueError
          | _ => .error .valueError
        else if isOctDigit e then
          let o2 := rest2.take 2 |>.takeWhile isOctDigit
          let v := digitsToNat 8 digitVal (e :: o2)
          match litEvalAux fuel (rest2.drop o2.length) with
          | .ok l => .ok (Char.ofNat v :: l)
          | .error err => .error err
        else
          match litEvalAux fuel rest2 with
          | .ok l => .ok ('\\' :: e :: l)
          | .error err => .error err
    else
      match litEvalAux fuel rest with
      | .ok l => .ok (c :: l)
      | .error err => .error err

/-- Evaluate the body of a single-quoted Python string literal. -/
def litEval (l : List Char) : Except PyErr (List Char) :=
  litEvalAux (l.length + 1) l

/-- Model of `unsafe_string` (lines 150-161): unquote the XML entities in
source order, re-escape every remaining quote as `\x27`, and evaluate the
result as a Python string literal. -/
def unsafe_string (s : String) : Except PyErr String :=
  let t := xmlUnquote s.data
  let t2 := pyReplace t "\x27".data "\\x27".data
  match litEval t2 with
  | .ok l => .ok (String.mk l)
  | .error e => .error e

/-- Model of `safe_content` (lines 164-169): substitute the five XML
metacharacters only. -/
def safe_content (s : String) : String := String.mk (xmlQuote s.data)

/-- Model of `unsafe_content` (lines 172-178): unquote the five XML
entities in source order. -/
def unsafe_content (s : String) : String := String.mk (xmlUnquote s.data)

/-! ## The encoder (nosis.py lines 243-338 and 367-584)

Python objects and their identities are modelled by a heap: a finite map
from identities (`id(x)` in the source) to values, where a container holds
the identities of its elements.  A cyclic or shared structure is a heap
with the corresponding id graph.  Class instances appear only at the top
level, as in the source: `_tag_completer` raises for instance values, so a
heap value is one of the types its branches handle. -/

/-- Heap values: what `_tag_completer` can receive, with containers
referring to their children by identity. -/
inductive HVal where
  | vnone
  | vbool (b : Bool)
  | vint (n : Int)
  | vfloat (q : ℚ)
  | vcomplex (re im : ℚ)
  | vstr (s : String)
  | vtuple (items : List Nat)
  | vlist (items : List Nat)
  | vdict (entries : List (Nat × Nat))
deriving DecidableEq

/-- A heap: identity to value.  Well-formed Python heaps bind every
reachable identity exactly once; the encoder reports `badHeap` on a
dangling identity, which has no source counterpart. -/
abbrev Heap := List (Nat × HVal)

/-- The `VISITED` table as used by the encoder: the set of registered
identities.  The source stores `VISITED[id(x)] = x`; since the heap is
fixed during one encode, the bound value is always the heap value of the
key, so only membership needs recording. -/
abbrev Table := List Nat

/-- `VISITED[id(x)] = x`: record an identity (membership-preserving). -/
def insertV (σ : Table) (i : Nat) : Table := if σ.contains i then σ else i :: σ

/-- Python truthiness of a heap value, as tested by
`if VISITED.get(idt):` in `_tag_compound`. -/
def pyTruthy : HVal → Bool
  | .vnone => false
  | .vbool b => b
  | .vint n => n != 0
  | .vfloat q => q.num != 0
  | .vcomplex re im => re.num != 0 || im.num != 0
  | .vstr s => !s.data.isEmpty
  | .vtuple items => !items.isEmpty
  | .vlist items => !items.isEmpty
  | .vdict entries => !entries.isEmpty

/-- Encoder failures of the model: `outOfFuel` stands for Python's
`RecursionError` on unbounded recursion, `badHeap` for a dangling identity
(impossible for heaps taken from live Python objects). -/
inductive EncErr where
  | outOfFuel
  | badHeap
deriving DecidableEq

/-- The indentation `'  ' * level`. -/
def indent (level : Nat) : String := String.mk (List.replicate (2 * level) ' ')

/-- Sequence tag-producing computations over a list, threading the
`VISITED` table and concatenating the produced text (the
`tag_body.append` loops). -/
def foldTags {α : Type} (f : α → Table → Except EncErr (String × Table)) :
    List α → Table → Except EncErr (String × Table)
  | [], σ => .ok ("", σ)
  | a :: rest, σ =>
    match f a σ with
    | .error e => .error e
    | .ok (s1, σ1) =>
      match foldTags f rest σ1 with
      | .error e => .error e
      | .ok (s2, σ2) => .ok (s1 ++ s2, σ2)

/-- Model of `_tag_completer` (lines 480-584) together with the tag
builders `_attr_tag`/`_item_tag`/`_entry_tag` it recurses through.  The
arguments mirror the source: the opening text `startT`, the closing text
`closeT`, the value's identity `oid` and the indentation `level`; the
`VISITED` table is threaded explicitly.  `TYPE_IN_BODY` maps every type to
`0`, so `in_body` is always false and each scalar branch takes its
`value="..."` arm; `mtag` is always `None`, so `_family_type` reduces to
`type="..."` without a `family=` attribute.  The branches appear in source
order; `_tag_compound` (lines 392-403) is inlined in the three container
branches, including its truthiness test `if VISITED.get(idt):`.  Note the
source's registration points: the final unconditional
`VISITED[id(orig_thing)] = orig_thing` of line 582 runs for every value,
and the list and dict branches additionally register the container before
descending (lines 557 and 569) while the tuple branch does not. -/
def tagCompleter (h : Heap) : Nat → Table → String → String → Nat → Nat →
    Except EncErr (String × Table)
  | 0, _, _, _, _, _ => .error .outOfFuel
  | fuel + 1, σ, startT, closeT, oid, level =>
    match h.lookup oid with
    | none => .error .badHeap
    | some v =>
      match v with
      | .vnone => .ok (startT ++ "type=\"None\" />\n", insertV σ oid)
      | .vbool b =>
        .ok (startT ++ (if b then "type=\"True\"" else "type=\"False\"") ++ " value=\"\" />\n",
          insertV σ oid)
      | .vint n =>
        .ok (startT ++ "type=\"numeric\" value=\"" ++ ntoa (.int n) ++ "\" />\n", insertV σ oid)
      | .vfloat q =>
        .ok (startT ++ "type=\"numeric\" value=\"" ++ ntoa (.float q) ++ "\" />\n", insertV σ oid)
      | .vcomplex re im =>
        .ok (startT ++ "type=\"numeric\" value=\"" ++ ntoa (.complex re im) ++ "\" />\n",
          insertV σ oid)
      | .vstr s =>
        .ok (startT ++ "type=\"string\" value=\"" ++ safe_string s ++ "\" />\n", insertV σ oid)
      | .vtuple items =>
        -- `if VISITED.get(idt):` — pyTruthy of the stored tuple
        if σ.contains oid && !items.isEmpty then
          .ok (startT ++ "type=\"tuple\"" ++ " refid=\"" ++ natToStr oid ++ "\" />\n",
            insertV σ oid)
        else
          -- no pre-registration for tuples: the items see the incoming table
          match
            foldTags
              (fun i σ' =>
                tagCompleter h fuel σ' (indent (level + 1) ++ "<item ")
                  (indent (level + 1) ++ "</item>\n") i (level + 1))
              items σ with
          | .error e => .error e
          | .ok (body, σ2) =>
            .ok (startT ++ "type=\"tuple\"" ++ " id=\"" ++ natToStr oid ++ "\" >\n" ++ body ++
              closeT, insertV σ2 oid)
      | .vlist items =>
        -- `if VISITED.get(idt):` — pyTruthy of the stored list
        if σ.contains oid && !items.isEmpty then
          .ok (startT ++ "type=\"list\"" ++ " refid=\"" ++ natToStr oid ++ "\" />\n",
            insertV σ oid)
        else
          -- line 557: remember the container before pickling subitems
          let σ1 := insertV σ oid
          match
            foldTags
              (fun i σ' =>
                tagCompleter h fuel σ' (indent (level + 1) ++ "<item ")
                  (indent (level + 1) ++ "</item>\n") i (level + 1))
              items σ1 with
          | .error e => .error e
          | .ok (body, σ2) =>
            .ok (startT ++ "type=\"list\"" ++ " id=\"" ++ natToStr oid ++ "\" >\n" ++ body ++
              closeT, insertV σ2 oid)
      | .vdict entries =>
        -- `if VISITED.get(idt):` — pyTruthy of the stored dict
        if σ.contains oid && !entries.isEmpty then
          .ok (startT ++ "type=\"dict\"" ++ " refid=\"" ++ natToStr oid ++ "\" />\n",
            insertV σ oid)
        else
          -- line 569: remember the container before pickling subitems
          let σ1 := insertV σ oid
          match
            foldTags
              (fun kv σ' =>
                match
                  tagCompleter h fuel σ' (indent (level + 1) ++ "  <key ")
                    (indent (level + 1) ++ "  </key>\n") kv.1 (level + 2) with
                | .error e => .error e
                | .ok (kb, σk) =>
                  match
                    tagCompleter h fuel σk (indent (level + 1) ++ "  <val ")
                      (indent (level + 1) ++ "  </val>\n") kv.2 (level + 2) with
                  | .error e => .error e
                  | .ok (vb, σv) =>
                    .ok (indent (level + 1) ++ "<entry>\n" ++ kb ++ vb ++
                      indent (level + 1) ++ "</entry>\n", σv))
              entries σ1 with
          | .error e => .error e
          | .ok (body, σ2) =>
            .ok (startT ++ "type=\"dict\"" ++ " id=\"" ++ natToStr oid ++ "\" >\n" ++ body ++
              closeT, insertV σ2 oid)

/-- Model of `_attr_tag` (lines 368-371). -/
def attrTag (h : Heap) (fuel : Nat) (σ : Table) (name : String) (oid level : Nat) :
    Except EncErr (String × Table) :=
  tagCompleter h fuel σ (indent level ++ "<attr name=\"" ++ name ++ "\" ")
    (indent level ++ "</attr>\n") oid level

/-- Python truthiness of the `omit` argument (`None` or a list of field
names): `if omit and key in omit`. -/
def omitTruthy : Option (List String) → Bool
  | none => false
  | some l => !l.isEmpty

/-- Membership of a key in the `omit` argument. -/
def omitHas (om : Option (List String)) (key : String) : Bool :=
  match om with
  | none => false
  | some l => l.contains key

/-- Model of the field loop of `pickle_instance` (lines 312-338): one
`attr` tag per field of `obj.__dict__` in order, skipping a field exactly
when `omit and key in omit`. -/
def pickle_instance (h : Heap) (fuel : Nat) : Table → List (String × Nat) →
    Option (List String) → Nat → Except EncErr (String × Table)
  | σ, [], _, _ => .ok ("", σ)
  | σ, (key, vid) :: rest, om, level =>
    if omitTruthy om && omitHas om key then
      pickle_instance h fuel σ rest om level
    else
      match attrTag h fuel σ key vid level with
      | .error e => .error e
      | .ok (s1, σ1) =>
        match pickle_instance h fuel σ1 rest om level with
        | .error e => .error e
        | .ok (s2, σ2) => .ok (s1 ++ s2, σ2)

/-- The root instance handed to `xmldump`: its class identification, its
identity and its `__dict__` in iteration order (field name to value
identity). -/
structure PyObjRoot where
  module : String
  klassName : String
  oid : Nat
  fields : List (String × Nat)
deriving DecidableEq

/-- Model of `_pickle_toplevel_obj` (lines 268-309) as called by `xmldump`
(lines 243-254) with a fresh string stream: reset `VISITED` to the root's
identity, write the XML header, the `<PyObject>` element with
`module=`/`class=` (the module name with `objdictgen.` removed) and
`id=`, the fields via `pickle_instance`, and the closing tag. -/
def xmldump (h : Heap) (fuel : Nat) (root : PyObjRoot) (om : Option (List String)) :
    Except EncErr String :=
  let σ0 : Table := [root.oid]
  let module := String.mk (pyReplace root.module.data "objdictgen.".data [])
  let extra := "module=\"" ++ module ++ "\" class=\"" ++ root.klassName ++ "\""
  match pickle_instance h fuel σ0 root.fields om 0 with
  | .error e => .error e
  | .ok (body, _) =>
    .ok ("<?xml version=\"1.0\"?>\n<!DOCTYPE PyObject SYSTEM \"PyObjects.dtd\">\n" ++
      "<PyObject " ++ extra ++ " id=\"" ++ natToStr root.oid ++ "\">\n" ++ body ++
      "</PyObject>\n")

/-! ## The decoder (nosis.py lines 181-241 and 341-364, 587-700)

A parsed document is a tree of element nodes; the body text of an element
is carried in its `text` field (minidom represents it as a first `#text`
child, which the decoder's loop skips as a container child and reads in
`get_node_valuetext`).  Decoded values live in a store so that the sharing
and mutation the source gets from Python object identity is explicit: a
compound value is a store address, and `VISITED` maps the id strings of
the document to decoded values. -/

/-- An XML element: tag name, attributes, body text, element children. -/
inductive XNode where
  | mk (name : String) (attrs : List (String × String)) (text : String) (children : List XNode)

/-- Tag name of an element. -/
def XNode.name : XNode → String
  | .mk n _ _ _ => n

/-- Attribute list of an element. -/
def XNode.attrs : XNode → List (String × String)
  | .mk _ a _ _ => a

/-- Body text of an element. -/
def XNode.text : XNode → String
  | .mk _ _ t _ => t

/-- Element children of an element. -/
def XNode.children : XNode → List XNode
  | .mk _ _ _ c => c

/-- minidom `node.getAttribute(a)`: the value, or `''` when absent. -/
def getAttribute (n : XNode) (a : String) : String := (n.attrs.lookup a).getD ""

/-- The `'value' in node._attrs` test of `get_node_valuetext`. -/
def hasValueAttr (n : XNode) : Bool := (n.attrs.lookup "value").isSome

/-- Model of `get_node_valuetext` (lines 224-240): read the `value=`
attribute through `unsafe_string` when present, otherwise the body text
through `unsafe_content` (the empty string when the node has no text). -/
def getNodeValuetext (n : XNode) : Except PyErr String :=
  if hasValueAttr n then unsafe_string (getAttribute n "value")
  else .ok (unsafe_content n.text)

/-- Decoded scalar values and references into the store. -/
inductive DVal where
  | dnone
  | dbool (b : Bool)
  | dint (n : Int)
  | dfloat (q : ℚ)
  | dcomplex (re im : ℚ)
  | dstr (s : String)
  | dref (a : Nat)
deriving DecidableEq

/-- Store values: the mutable (or, for tuples, freshly built) compounds. -/
inductive SVal where
  | slist (items : List DVal)
  | stuple (items : List DVal)
  | sdict (entries : List (DVal × DVal))
  | sobj (klass : String) (fields : List (String × DVal))
deriving DecidableEq

/-- Decoder state: the `VISITED` map from id strings to decoded values,
the store of compound values, and the next fresh address. -/
structure DecSt where
  visited : List (String × DVal)
  store : List (Nat × SVal)
  next : Nat
deriving DecidableEq

/-- The empty decoder state (`VISITED = {}` at `thing_from_dom` entry). -/
def DecSt.empty : DecSt := ⟨[], [], 0⟩

/-- Update-or-add for an association list, preserving binding order as a
Python `dict` assignment does. -/
def setAssoc {κ ν : Type} [BEq κ] : List (κ × ν) → κ → ν → List (κ × ν)
  | [], k, v => [(k, v)]
  | (k', v') :: rest, k, v =>
    if k' == k then (k, v) :: rest else (k', v') :: setAssoc rest k v

/-- Allocate a fresh store value, returning its address. -/
def allocSt (st : DecSt) (v : SVal) : Nat × DecSt :=
  (st.next, ⟨st.visited, (st.next, v) :: st.store, st.next + 1⟩)

/-- Read a store address. -/
def storeGet (st : DecSt) (a : Nat) : Option SVal := st.store.lookup a

/-- Overwrite a store address. -/
def storeSet (st : DecSt) (a : Nat) (v : SVal) : DecSt :=
  ⟨st.visited, setAssoc st.store a v, st.next⟩

/-- `VISITED[key] = v` on the decoder side. -/
def visitedSet (st : DecSt) (key : String) (v : DVal) : DecSt :=
  ⟨setAssoc st.visited key v, st.store, st.next⟩

/-- Model of `_save_obj_with_id` (lines 193-196): register the decoded
value under the node's `id` attribute unless that attribute is empty. -/
def saveObjWithId (node : XNode) (v : DVal) (st : DecSt) : DecSt :=
  let objid := getAttribute node "id"
  if objid.length ≠ 0 then visitedSet st objid v else st

/-- Decoder failures.  Each constructor names one `raise` site of the
source (or, for `outOfFuel` and `badState`, a model artifact): the
`ValueError` of `obj_from_node` — the spec's `UnknownClassError` —, the
`KeyError` of `VISITED[ref_id]`, the `ValueError`s for unknown uniq types,
families, types and elements, an exception escaping `aton` or
`unsafe_string`, and the `IndexError` of `keyval[0]`/`keyval[1]`.
`badState` marks operations (such as `setattr` on a non-object or
`append` on a non-list) on which the source would raise a `TypeError` or
`AttributeError`; no theorem depends on its exact identity. -/
inductive DecErr where
  | outOfFuel
  | unknownClass
  | refKeyError
  | unknownUniq
  | unknownFamily
  | unknownType
  | badElement
  | numErr (e : PyErr)
  | strErr (e : PyErr)
  | entryIndexError
  | badState
deriving DecidableEq

/-- The `CLASS_STORE` (line 200): the set of registered class names (the
stored factory produces an empty instance of the class, which the model
represents by tagging the instance with the class name). -/
abbrev ClassStore := List String

/-- Model of `add_class_to_store` (lines 203-206): register `klass` under
`classname` only when both arguments are truthy (a non-empty name and a
present class); otherwise do nothing. -/
def add_class_to_store (cs : ClassStore) (classname : String) (klass : Option Unit) :
    ClassStore :=
  if !classname.isEmpty && klass.isSome then
    if cs.contains classname then cs else classname :: cs
  else cs

/-- Model of `obj_from_node` (lines 209-221): look the node's `class`
attribute up in `CLASS_STORE` — the `module` attribute is not consulted —
and allocate an empty instance without running any initializer; raise when
the name is not registered. -/
def obj_from_node (cs : ClassStore) (node : XNode) (st : DecSt) :
    Except DecErr (DVal × DecSt) :=
  let classname := getAttribute node "class"
  if cs.contains classname then
    let (a, st') := allocSt st (.sobj classname [])
    .ok (.dref a, st')
  else .error .unknownClass

/-- Conversion of an `aton` result into a decoded value. -/
def numToDVal : PyNum → DVal
  | .int n => .dint n
  | .float q => .dfloat q
  | .complex re im => .dcomplex re im

/-- The `TYPENAMES` table (lines 450-463). -/
def TYPENAMES : List (String × String) :=
  [("None", "none"), ("dict", "map"), ("list", "seq"), ("tuple", "seq"),
   ("numeric", "atom"), ("string", "atom"), ("bytes", "atom"), ("PyObject", "obj"),
   ("function", "lang"), ("class", "lang"), ("True", "uniq"), ("False", "uniq")]

/-- Model of `_fix_family` (lines 466-477): keep a non-empty family,
otherwise infer it from the type name, failing for unknown types. -/
def fixFamily (family typename : String) : Except DecErr String :=
  if family.length ≠ 0 then .ok family
  else
    match TYPENAMES.lookup typename with
    | some f => .ok f
    | none => .error .unknownFamily

/-- `setattr(container, name, val)` on a decoded object reference. -/
def setattrD (st : DecSt) (container : DVal) (name : String) (v : DVal) :
    Except DecErr DecSt :=
  match container with
  | .dref p =>
    match storeGet st p with
    | some (.sobj k fields) => .ok (storeSet st p (.sobj k (setAssoc fields name v)))
    | _ => .error .badState
  | _ => .error .badState

/-- `container.append(val)` on a decoded list reference. -/
def appendD (st : DecSt) (container : DVal) (v : DVal) : Except DecErr DecSt :=
  match container with
  | .dref a =>
    match storeGet st a with
    | some (.slist items) => .ok (storeSet st a (.slist (items ++ [v])))
    | _ => .error .badState
  | _ => .error .badState

/-- Process the children of a DOM node in order, threading the container
(which the `PyObject` branch rebinds, as the source's loop variable
`container` is) and the state; `f` handles one child. -/
def foldNodes (f : XNode → DVal → DecSt → Except DecErr (DVal × DecSt)) :
    List XNode → DVal → DecSt → Except DecErr (DVal × DecSt)
  | [], c, st => .ok (c, st)
  | n :: rest, c, st =>
    match f n c st with
    | .error e => .error e
    | .ok (c', st') => foldNodes f rest c' st'

/-- Model of `unpickle_instance` (lines 341-364), parameterized by the
child-processing recursion `recNode`: create the empty instance, register
it under the node's `id` *before* the children are parsed, slurp the
`attr` children into a fresh `_EmptyClass` instance, and copy its fields
onto the real instance in order. -/
def unpickleInstanceWith (cs : ClassStore)
    (recNode : XNode → DVal → DecSt → Except DecErr (DVal × DecSt))
    (node : XNode) (st : DecSt) : Except DecErr (DVal × DecSt) :=
  match obj_from_node cs node st with
  | .error e => .error e
  | .ok (pyobj, st1) =>
    let st2 := saveObjWithId node pyobj st1
    let (t, st3) := allocSt st2 (.sobj "_EmptyClass" [])
    match recNode node (.dref t) st3 with
    | .error e => .error e
    | .ok (raw, st4) =>
      match raw with
      | .dref tr =>
        match storeGet st4 tr with
        | some (.sobj _ fields) =>
          match
            fields.foldlM (fun acc kv => setattrD acc pyobj kv.1 kv.2) st4 with
          | .error e => .error e
          | .ok st5 => .ok (pyobj, st5)
        | _ => .error .badState
      | _ => .error .badState

/-- Model of the loop body of `_thing_from_dom` (lines 589-698) for one
child node, parameterized by the recursion `recNode` that processes a
node's children.  The branches follow the source: `PyObject`;
`attr`/`item`/`key`/`val` with the `refid` check first, then family
resolution (step 1) and type refinement (step 2), then attachment to the
container and `_save_obj_with_id`; `entry`; and the failing default. -/
def decodeOneWith (cs : ClassStore)
    (recNode : XNode → DVal → DecSt → Except DecErr (DVal × DecSt))
    (node : XNode) (container : DVal) (st : DecSt) :
    Except DecErr (DVal × DecSt) :=
  if node.name == "PyObject" then
    match unpickleInstanceWith cs recNode node st with
    | .error e => .error e
    | .ok (inst, st1) =>
      -- lines 595-599: re-register, even under an empty id
      .ok (inst, visitedSet st1 (getAttribute node "id") inst)
  else if node.name == "attr" || node.name == "item" || node.name == "key" ||
      node.name == "val" then
    let nodeName := getAttribute node "name"
    let nodeType := getAttribute node "type"
    let refId := getAttribute node "refid"
    if refId.length ≠ 0 then
      match st.visited.lookup refId with
      | none => .error .refKeyError
      | some v =>
        if node.name == "attr" then
          match setattrD st container nodeName v with
          | .error e => .error e
          | .ok st' => .ok (container, st')
        else
          match appendD st container v with
          | .error e => .error e
          | .ok st' => .ok (container, st')
    else
      match fixFamily (getAttribute node "family") nodeType with
      | .error e => .error e
      | .ok nodeFamily =>
        match getNodeValuetext node with
        | .error e => .error (.strErr e)
        | .ok valuetext =>
          -- step 1: the basic thing, by family
          match
            (if nodeFamily == "none" then .ok (DVal.dnone, st)
             else if nodeFamily == "atom" then .ok (DVal.dstr valuetext, st)
             else if nodeFamily == "seq" then
               let (a, stA) := allocSt st (.slist [])
               let stB := saveObjWithId node (.dref a) stA
               recNode node (.dref a) stB
             else if nodeFamily == "map" then
               let (a, stA) := allocSt st (.sdict [])
               let stB := saveObjWithId node (.dref a) stA
               recNode node (.dref a) stB
             else if nodeFamily == "uniq" then
               if nodeType == "True" then .ok (DVal.dbool true, st)
               else if nodeType == "False" then .ok (DVal.dbool false, st)
               else .error .unknownUniq
             else .error .unknownFamily :
              Except DecErr (DVal × DecSt)) with
          | .error e => .error e
          | .ok (val1, st1) =>
            -- step 2: the exact thing, by type
            match
              (if nodeType == "None" then .ok (DVal.dnone, st1)
               else if nodeType == "numeric" then
                 match val1 with
                 | .dstr s =>
                   match aton s with
                   | .ok n => .ok (numToDVal n, st1)
                   | .error e => .error (.numErr e)
                 | _ => .error .badState
               else if nodeType == "string" then .ok (val1, st1)
               else if nodeType == "list" then .ok (val1, st1)
               else if nodeType == "tuple" then
                 match val1 with
                 | .dref a =>
                   match storeGet st1 a with
                   | some (.slist items) =>
                     let (a2, st2) := allocSt st1 (.stuple items)
                     .ok (DVal.dref a2, st2)
                   | _ => .error .badState
                 | _ => .error .badState
               else if nodeType == "dict" then .ok (val1, st1)
               else if nodeType == "True" then .ok (val1, st1)
               else if nodeType == "False" then .ok (val1, st1)
               else .error .unknownType :
                Except DecErr (DVal × DecSt)) with
            | .error e => .error e
            | .ok (nodeVal, st2) =>
              match
                (if node.name == "attr" then setattrD st2 container nodeName nodeVal
                 else appendD st2 container nodeVal) with
              | .error e => .error e
              | .ok st3 => .ok (container, saveObjWithId node nodeVal st3)
  else if node.name == "entry" then
    let (a, stA) := allocSt st (.slist [])
    match recNode node (.dref a) stA with
    | .error e => .error e
    | .ok (_, st1) =>
      match storeGet st1 a with
      | some (.slist (key :: val :: _)) =>
        match container with
        | .dref d =>
          match storeGet st1 d with
          | some (.sdict entries) =>
            .ok (container, storeSet st1 d (.sdict (setAssoc entries key val)))
          | _ => .error .badState
        | _ => .error .badState
      | some (.slist _) => .error .entryIndexError
      | _ => .error .badState
  else .error .badElement

/-- Model of `_thing_from_dom` (lines 587-700): fold the loop body over
the element children of a node.  `fuel` bounds the nesting depth (the
source recurses on the finite DOM tree; any fuel at least the tree height
suffices). -/
def thingFromDom (cs : ClassStore) : Nat → XNode → DVal → DecSt →
    Except DecErr (DVal × DecSt)
  | 0, _, _, _ => .error .outOfFuel
  | fuel + 1, dom, container, st =>
    foldNodes
      (fun n c s =>
        decodeOneWith cs (fun n2 c2 s2 => thingFromDom cs fuel n2 c2 s2) n c s)
      dom.children container st

/-- Model of `thing_from_dom` (lines 187-190): reset `VISITED` and decode
the document from a `None` container. -/
def thing_from_dom (cs : ClassStore) (fuel : Nat) (doc : XNode) :
    Except DecErr (DVal × DecSt) :=
  thingFromDom cs fuel doc .dnone DecSt.empty

/-- The `type="..."` text `_family_type` produces for a container value,
`none` for scalars. -/
def compoundFt : HVal → Option String
  | .vtuple _ => some "type=\"tuple\""
  | .vlist _ => some "type=\"list\""
  | .vdict _ => some "type=\"dict\""
  | _ => none

/-! ## Supporting lemmas -/

lemma insertV_contains (σ : Table) (i : Nat) : (insertV σ i).contains i = true := by
  unfold insertV
  split
  · assumption
  · simp [List.contains]

lemma insertV_of_contains (σ : Table) (i : Nat) (h : σ.contains i = true) :
    insertV σ i = σ := by
  unfold insertV
  rw [if_pos h]

lemma digitChar_isDigit (m : Nat) (h : m < 10) : isDigit (digitChar m) = true := by
  interval_cases m <;> decide

lemma digitChar_val (m : Nat) (h : m < 10) : digitVal (digitChar m) = m := by
  interval_cases m <;> decide

lemma digitChar_head_bounds (m : Nat) (h1 : 1 ≤ m) (h : m < 10) :
    49 ≤ (digitChar m).toNat ∧ (digitChar m).toNat ≤ 57 := by
  interval_cases m <;> exact ⟨by decide, by decide⟩

lemma isDigit_toNat (c : Char) (h : isDigit c = true) :
    48 ≤ c.toNat ∧ c.toNat ≤ 57 := by
  unfold isDigit at h
  constructor <;> [exact Nat.le_of_ble_eq_true (by simpa using (Bool.and_elim_left h));
    exact Nat.le_of_ble_eq_true (by simpa using (Bool.and_elim_right h))]

lemma digitsToNat_append (base : Nat) (f : Char → Nat) (a : List Char) (c : Char) :
    digitsToNat base f (a ++ [c]) = digitsToNat base f a * base + f c := by
  unfold digitsToNat
  rw [List.foldl_append]
  rfl

lemma natStrAux_succ (fuel n : Nat) : natStrAux (fuel + 1) n =
    (if n < 10 then [digitChar n]
     else natStrAux fuel (n / 10) ++ [digitChar (n % 10)]) := rfl

lemma natStrAux_spec (fuel : Nat) : ∀ n, n < 10 ^ (fuel + 1) →
    natStrAux (fuel + 1) n ≠ [] ∧ (natStrAux (fuel + 1) n).all isDigit = true ∧
      digitsToNat 10 digitVal (natStrAux (fuel + 1) n) = n := by
  induction fuel with
  | zero =>
    intro n hn
    rw [show (10 : Nat) ^ (0 + 1) = 10 by norm_num] at hn
    rw [natStrAux_succ, if_pos hn]
    refine ⟨by simp, ?_, ?_⟩
    · simp [List.all_cons, digitChar_isDigit n hn]
    · simp [digitsToNat, digitChar_val n hn]
  | succ fuel ih =>
    intro n hn
    by_cases h10 : n < 10
    · rw [natStrAux_succ, if_pos h10]
      refine ⟨by simp, ?_, ?_⟩
      · simp [List.all_cons, digitChar_isDigit n h10]
      · simp [digitsToNat, digitChar_val n h10]
    · have hdiv : n / 10 < 10 ^ (fuel + 1) := by
        rw [Nat.div_lt_iff_lt_mul (by norm_num)]
        calc n < 10 ^ (fuel + 1 + 1) := hn
          _ = 10 ^ (fuel + 1) * 10 := by ring
      obtain ⟨ihne, ihall, ihval⟩ := ih (n / 10) hdiv
      have hmod : n % 10 < 10 := Nat.mod_lt n (by norm_num)
      rw [natStrAux_succ (fuel + 1) n, if_neg h10]
      refine ⟨by simp, ?_, ?_⟩
      · simp [List.all_append, ihall, List.all_cons, digitChar_isDigit _ hmod]
      · rw [digitsToNat_append, ihval, digitChar_val _ hmod]
        omega

lemma natStrAux_head (fuel : Nat) : ∀ n, n < 10 ^ (fuel + 1) → n ≠ 0 →
    ∃ c rest, natStrAux (fuel + 1) n = c :: rest ∧ 49 ≤ c.toNat ∧ c.toNat ≤ 57 := by
  induction fuel with
  | zero =>
    intro n hn h0
    rw [show (10 : Nat) ^ (0 + 1) = 10 by norm_num] at hn
    rw [natStrAux_succ, if_pos hn]
    obtain ⟨h1, h2⟩ := digitChar_head_bounds n (Nat.one_le_iff_ne_zero.mpr h0) hn
    exact ⟨digitChar n, [], rfl, h1, h2⟩
  | succ fuel ih =>
    intro n hn h0
    by_cases h10 : n < 10
    · rw [natStrAux_succ, if_pos h10]
      obtain ⟨h1, h2⟩ := digitChar_head_bounds n (Nat.one_le_iff_ne_zero.mpr h0) h10
      exact ⟨digitChar n, [], rfl, h1, h2⟩
    · have hdiv : n / 10 < 10 ^ (fuel + 1) := by
        rw [Nat.div_lt_iff_lt_mul (by norm_num)]
        calc n < 10 ^ (fuel + 1 + 1) := hn
          _ = 10 ^ (fuel + 1) * 10 := by ring
      have hd0 : n / 10 ≠ 0 := by omega
      obtain ⟨c, rest, hc, hb1, hb2⟩ := ih (n / 10) hdiv hd0
      refine ⟨c, rest ++ [digitChar (n % 10)], ?_, hb1, hb2⟩
      rw [natStrAux_succ (fuel + 1) n, if_neg h10, hc]
      rfl

lemma pow_ten_big (n : Nat) : n < 10 ^ (n + 1) := by
  calc n < 2 ^ n := Nat.lt_two_pow n
    _ ≤ 10 ^ n := Nat.pow_le_pow_left (by norm_num) n
    _ ≤ 10 ^ (n + 1) := Nat.pow_le_pow_right (by norm_num) (Nat.le_succ n)

lemma natStr_spec (n : Nat) : natStr n ≠ [] ∧ (natStr n).all isDigit = true ∧
    digitsToNat 10 digitVal (natStr n) = n :=
  natStrAux_spec n n (pow_ten_big n)

lemma natStr_head (n : Nat) (h0 : n ≠ 0) :
    ∃ c rest, natStr n = c :: rest ∧ 49 ≤ c.toNat ∧ c.toNat ≤ 57 :=
  natStrAux_head n n (pow_ten_big n) h0

lemma beq_char_false (c x : Char) (h : c.toNat ≠ x.toNat) : (c == x) = false := by
  apply beq_eq_false_iff_ne.mpr
  intro he
  exact h (by rw [he])

lemma pyWs_false_of_ge (c : Char) (h : 48 ≤ c.toNat) : pyWs c = false := by
  unfold pyWs
  rw [beq_char_false c ' ' (by have hx : (' ').toNat = 32 := rfl; omega),
    beq_char_false c '\t' (by have hx : ('\t').toNat = 9 := rfl; omega),
    beq_char_false c '\n' (by have hx : ('\n').toNat = 10 := rfl; omega),
    beq_char_false c '\r' (by have hx : ('\r').toNat = 13 := rfl; omega),
    beq_char_false c '\x0b' (by have hx : ('\x0b').toNat = 11 := rfl; omega),
    beq_char_false c '\x0c' (by have hx : ('\x0c').toNat = 12 := rfl; omega)]
  rfl

lemma dropWhile_eq_self_of (p : Char → Bool) (l : List Char)
    (h : ∀ c ∈ l, p c = false) : l.dropWhile p = l := by
  cases l with
  | nil => rfl
  | cons c rest => simp [List.dropWhile, h c (by simp)]

lemma pyStrip_id (l : List Char) (h : ∀ c ∈ l, pyWs c = false) : pyStrip l = l := by
  unfold pyStrip
  rw [dropWhile_eq_self_of _ _ h, dropWhile_eq_self_of _ _ (by simpa using h),
    List.reverse_reverse]

lemma parenStripAux_cons (fuel : Nat) (c : Char) (rest : List Char) :
    parenStripAux (fuel + 1) (c :: rest) =
      (if c == '(' && (c :: rest).getLast? == some ')' then
        parenStripAux fuel rest.dropLast
      else .ok (c :: rest)) := rfl

lemma parenStrip_cons_ok (c : Char) (rest : List Char) (h : (c == '(') = false) :
    parenStrip (c :: rest) = .ok (c :: rest) := by
  unfold parenStrip
  rw [show (c :: rest).length + 1 = (rest.length + 1) + 1 from by simp,
    parenStripAux_cons, h]
  rfl

lemma splitAtChar_none (p : Char → Bool) (l : List Char)
    (h : ∀ c ∈ l, p c = false) : splitAtChar p l = none := by
  induction l with
  | nil => rfl
  | cons c rest ih =>
    unfold splitAtChar
    rw [if_neg (by simp [h c (by simp)]), ih (fun x hx => h x (by simp [hx]))]

lemma isSignChar_false_of_digitish (c : Char) (h : 48 ≤ c.toNat) :
    isSignChar c = false := by
  unfold isSignChar
  rw [beq_char_false c '-' (by have hx : ('-').toNat = 45 := rfl; omega),
    beq_char_false c '+' (by have hx : ('+').toNat = 43 := rfl; omega)]
  rfl

lemma stripSign_digit_head (d : Char) (rest : List Char) (h : 48 ≤ d.toNat) :
    stripSign (d :: rest) = d :: rest := by
  show (if isSignChar d = true then rest else d :: rest) = d :: rest
  rw [isSignChar_false_of_digitish d h]
  simp

lemma matchZERO_false_digits (l : List Char) (d : Char) (rest : List Char)
    (hl : stripSign l = d :: rest) (hd : 49 ≤ d.toNat) : matchZERO l = false := by
  unfold matchZERO
  rw [hl]
  apply beq_eq_false_iff_ne.mpr
  intro he
  have hd0 : d = '0' := (List.cons.injEq _ _ _ _ ▸ he).1
  rw [hd0] at hd
  exact absurd hd (by decide)

lemma matchFL_false_digits (l : List Char) (h : (stripSign l).all isDigit = true) :
    matchFL l = false := by
  have hmem : ∀ c ∈ stripSign l, isDigit c = true := List.all_eq_true.mp h
  unfold matchFL
  rw [splitAtChar_none _ _ (fun c hc => by
    obtain ⟨h1, h2⟩ := isDigit_toNat c (hmem c hc)
    simp only [Bool.or_eq_false_iff]
    exact ⟨beq_char_false c 'e' (by have hx : ('e').toNat = 101 := rfl; omega),
      beq_char_false c 'E' (by have hx : ('E').toNat = 69 := rfl; omega)⟩)]
  show matchDotted (stripSign l) = false
  unfold matchDotted
  rw [splitAtChar_none _ _ (fun c hc => by
    obtain ⟨h1, h2⟩ := isDigit_toNat c (hmem c hc)
    exact beq_char_false c '.' (by have hx : ('.').toNat = 46 := rfl; omega))]

lemma matchLONG_false_digits (l : List Char) (h : (stripSign l).all isDigit = true) :
    matchLONG l = false := by
  have hmem : ∀ c ∈ stripSign l, isDigit c = true := List.all_eq_true.mp h
  unfold matchLONG
  cases hrev : (stripSign l).reverse with
  | nil => rfl
  | cons c rest =>
    have hc : c ∈ stripSign l := by
      rw [← List.mem_reverse, hrev]
      simp
    obtain ⟨h1, h2⟩ := isDigit_toNat c (hmem c hc)
    show ((c == 'l' || c == 'L') && !rest.isEmpty && rest.all isDigit) = false
    rw [beq_char_false c 'l' (by have hx : ('l').toNat = 108 := rfl; omega),
      beq_char_false c 'L' (by have hx : ('L').toNat = 76 := rfl; omega)]
    simp

lemma matchINT_true_digits (l : List Char) (d : Char) (rest : List Char)
    (hl : stripSign l = d :: rest) (hd1 : 49 ≤ d.toNat) (hd2 : d.toNat ≤ 57)
    (hall : rest.all isDigit = true) : matchINT l = true := by
  unfold matchINT
  rw [hl]
  show ((decide (49 ≤ d.toNat) && decide (d.toNat ≤ 57)) && rest.all isDigit) = true
  simp [hd1, hd2, hall]

lemma parseDecInt_digits (d : Char) (rest : List Char) (hd : 48 ≤ d.toNat) :
    parseDecInt (d :: rest) = (digitsToNat 10 digitVal (d :: rest) : Int) := by
  show (if d == '-' then -(digitsToNat 10 digitVal rest : Int)
    else if d == '+' then (digitsToNat 10 digitVal rest : Int)
    else (digitsToNat 10 digitVal (d :: rest) : Int)) =
      (digitsToNat 10 digitVal (d :: rest) : Int)
  rw [beq_char_false d '-' (by have hx : ('-').toNat = 45 := rfl; omega),
    beq_char_false d '+' (by have hx : ('+').toNat = 43 := rfl; omega)]
  simp

lemma atonCore_digits (m : Nat) (h0 : m ≠ 0) : atonCore (natStr m) = .ok (.int m) := by
  obtain ⟨hne, hall, hval⟩ := natStr_spec m
  obtain ⟨d, rest, hds, hb1, hb2⟩ := natStr_head m h0
  have hss : stripSign (natStr m) = natStr m := by
    rw [hds]
    exact stripSign_digit_head d rest (by omega)
  have hall2 : (isDigit d && rest.all isDigit) = true := by
    rw [← List.all_cons, ← hds]
    exact hall
  have hrest : rest.all isDigit = true := (Bool.and_eq_true_iff.mp hall2).2
  unfold atonCore
  rw [matchZERO_false_digits _ d rest (hss.trans hds) hb1,
    matchFL_false_digits _ (by rw [hss]; exact hall),
    matchLONG_false_digits _ (by rw [hss]; exact hall),
    matchINT_true_digits _ d rest (hss.trans hds) hb1 hb2 hrest]
  simp only [Bool.false_eq_true, if_false, if_true]
  rw [hds, parseDecInt_digits d rest (by omega), ← hds, hval]

lemma atonCore_neg_digits (m : Nat) (h0 : m ≠ 0) :
    atonCore ('-' :: natStr m) = .ok (.int (-(m : Int))) := by
  obtain ⟨hne, hall, hval⟩ := natStr_spec m
  obtain ⟨d, rest, hds, hb1, hb2⟩ := natStr_head m h0
  have hss : stripSign ('-' :: natStr m) = natStr m := by
    show (if isSignChar '-' = true then natStr m else '-' :: natStr m) = natStr m
    rw [show isSignChar '-' = true from rfl]
    simp
  unfold atonCore
  rw [matchZERO_false_digits _ d rest (hss.trans hds) hb1,
    matchFL_false_digits _ (by rw [hss]; exact hall),
    matchLONG_false_digits _ (by rw [hss]; exact hall),
    matchINT_true_digits _ d rest (hss.trans hds) hb1 hb2 (by
      have hall2 : (isDigit d && rest.all isDigit) = true := by
        rw [← List.all_cons, ← hds]
        exact hall
      exact (Bool.and_eq_true_iff.mp hall2).2)]
  simp only [Bool.false_eq_true, if_false, if_true]
  have hp : parseDecInt ('-' :: natStr m) = -(digitsToNat 10 digitVal (natStr m) : Int) := by
    show (if ('-' : Char) == '-' then -(digitsToNat 10 digitVal (natStr m) : Int)
      else if ('-' : Char) == '+' then (digitsToNat 10 digitVal (natStr m) : Int)
      else (digitsToNat 10 digitVal ('-' :: natStr m) : Int)) = _
    rw [show (('-' : Char) == '-') = true from rfl]
    simp
  rw [hp, hval]

lemma aton_intStr (n : Int) : aton (ntoa (.int n)) = .ok (.int n) := by
  by_cases hneg : n < 0
  · have hm : n.natAbs ≠ 0 := by omega
    have hio : ntoa (.int n) = String.mk ('-' :: natStr n.natAbs) := by
      show String.mk (intStr n) = String.mk ('-' :: natStr n.natAbs)
      unfold intStr
      rw [if_pos hneg]
    obtain ⟨hne, hall, hval⟩ := natStr_spec n.natAbs
    have hmem : ∀ c ∈ natStr n.natAbs, isDigit c = true := List.all_eq_true.mp hall
    have h1 : pyStrip ('-' :: natStr n.natAbs) = '-' :: natStr n.natAbs := by
      apply pyStrip_id
      intro c hc
      rcases List.mem_cons.mp hc with hc | hc
      · rw [hc]
        decide
      · exact pyWs_false_of_ge c (isDigit_toNat c (hmem c hc)).1
    have h2 : parenStrip ('-' :: natStr n.natAbs) = .ok ('-' :: natStr n.natAbs) :=
      parenStrip_cons_ok '-' _ (by decide)
    rw [hio]
    unfold aton
    rw [show (String.mk ('-' :: natStr n.natAbs)).data = '-' :: natStr n.natAbs from rfl,
      h1, h2]
    show atonCore ('-' :: natStr n.natAbs) = .ok (.int n)
    rw [atonCore_neg_digits n.natAbs hm]
    have he : -((n.natAbs : Nat) : Int) = n := by omega
    rw [he]
  · by_cases h0 : n = 0
    · subst h0
      decide
    · have hm : n.natAbs ≠ 0 := by omega
      have hio : ntoa (.int n) = String.mk (natStr n.natAbs) := by
        show String.mk (intStr n) = String.mk (natStr n.natAbs)
        unfold intStr
        rw [if_neg hneg]
      obtain ⟨hne, hall, hval⟩ := natStr_spec n.natAbs
      have hmem : ∀ c ∈ natStr n.natAbs, isDigit c = true := List.all_eq_true.mp hall
      have h1 : pyStrip (natStr n.natAbs) = natStr n.natAbs :=
        pyStrip_id _ (fun c hc => pyWs_false_of_ge c (isDigit_toNat c (hmem c hc)).1)
      obtain ⟨d, rest, hds, hb1, hb2⟩ := natStr_head n.natAbs hm
      have h2 : parenStrip (natStr n.natAbs) = .ok (natStr n.natAbs) := by
        rw [hds]
        exact parenStrip_cons_ok d rest
          (beq_char_false d '(' (by have hx : ('(').toNat = 40 := rfl; omega))
      rw [hio]
      unfold aton
      rw [show (String.mk (natStr n.natAbs)).data = natStr n.natAbs from rfl, h1, h2]
      show atonCore (natStr n.natAbs) = .ok (.int n)
      rw [atonCore_digits n.natAbs hm]
      have he : ((n.natAbs : Nat) : Int) = n := by omega
      rw [he]

/-! ## Claim C1 -/

/-- C1, counterexample.  The claim states that decoding the encoding of
every supported scalar yields the value back, in particular
`aton(ntoa(n)) == n` for every complex `n`.  At `n = complex(0, 1)` the
source renders `ntoa(n) = "0+1j"`, which matches none of `aton`'s
patterns (`PAT_FLINT` rejects the bare `0`), so `aton` raises `ValueError`
instead of returning the value. -/
theorem c1_counterexample :
    ntoa (PyNum.complex (mkRat 0 1) (mkRat 1 1)) = "0+1j" ∧
    aton (ntoa (PyNum.complex (mkRat 0 1) (mkRat 1 1))) = .error .valueError ∧
    aton (ntoa (PyNum.complex (mkRat 0 1) (mkRat 1 1))) ≠
      .ok (PyNum.complex (mkRat 0 1) (mkRat 1 1)) := by
  refine ⟨by decide, by decide, by decide⟩

/-- C1, amended: `aton(ntoa(n)) == n` holds for every integer `n`, and the
legacy literal forms parse as the claim states (`0x1A` to 26, `017` to 15,
`-0` to 0); the complex round trip fails (see the counterexample), and the
float round trip concerns IEEE double formatting, outside this exact-
rational model. -/
theorem c1_amended :
    (∀ n : Int, aton (ntoa (.int n)) = .ok (.int n)) ∧
    aton "0x1A" = .ok (.int 26) ∧ aton "017" = .ok (.int 15) ∧
    aton "-0" = .ok (.int 0) := by
  exact ⟨aton_intStr, by decide, by decide, by decide⟩

/-! ## Claim C2 -/

/-- C2, code bug.  `unsafe_string`'s docstring promises to recreate the
original string from `safe_string`'s output, and the claim asserts
`unsafe_string(safe_string(s)) == s` and
`unsafe_content(safe_content(s)) == s` for all strings.  Both fail at
`s = "&lt;"`: quoting turns it into `"&amp;lt;"`, but the unquoting loops
substitute `&amp;` *first* (producing `"&lt;"`) and then `&lt;`, so the
composition returns `"<"` instead of `"&lt;"`. -/
theorem c2_escape_bug :
    safe_string "&lt;" = "&amp;lt;" ∧
    unsafe_string (safe_string "&lt;") = .ok "<" ∧
    safe_content "&lt;" = "&amp;lt;" ∧
    unsafe_content (safe_content "&lt;") = "<" ∧
    ("<" : String) ≠ "&lt;" := by
  refine ⟨by decide, by decide, by decide, by decide, by decide⟩

/-! ## Claim C6 -/

/-- C6: the pattern cascade of `aton` behaves as claimed.  A lone
`0`/`-0`/`+0` yields the integer 0 (the zero pattern has the highest
priority: `0.0` is left to the float pattern), hex and octal literals
convert with the sign applied after conversion (`0x1A` to 26, `-0x1a` to
-26, `017` to 15, `-017` to -15), a trailing `l`/`L` long suffix is
stripped (`42L`, `42l`, `-42L` parse as ±42), and `a:b` parses as the
complex number with real part `a` and imaginary part `b` (`1.5:2.5`,
with float components modelled as exact rationals), while `a+bj` parses
through the complex constructor (`1+2j`). -/
theorem c6_aton_forms :
    aton "0" = .ok (.int 0) ∧ aton "-0" = .ok (.int 0) ∧ aton "+0" = .ok (.int 0) ∧
    aton "0.0" = .ok (.float (mkRat 0 1)) ∧
    aton "0x1A" = .ok (.int 26) ∧ aton "-0x1a" = .ok (.int (-26)) ∧
    aton "0X1A" = .ok (.int 26) ∧
    aton "017" = .ok (.int 15) ∧ aton "-017" = .ok (.int (-15)) ∧
    aton "42L" = .ok (.int 42) ∧ aton "42l" = .ok (.int 42) ∧
    aton "-42L" = .ok (.int (-42)) ∧
    aton "1.5:2.5" = .ok (.complex (mkRat 3 2) (mkRat 5 2)) ∧
    aton "1+2j" = .ok (.complex (mkRat 1 1) (mkRat 2 1)) := by
  refine ⟨by decide, by decide, by decide, by decide, by decide, by decide, by decide,
    by decide, by decide, by decide, by decide, by decide, by decide, by decide⟩

/-! ## Claim C7 -/

lemma parenStripAux_error (fuel : Nat) : ∀ l e, parenStripAux fuel l = .error e →
    e = PyErr.indexError := by
  induction fuel with
  | zero =>
    intro l e h
    exact (Except.error.injEq .. ▸ h : _ = _).symm
  | succ fuel ih =>
    intro l e h
    cases l with
    | nil => exact (Except.error.injEq .. ▸ h : _ = _).symm
    | cons c rest =>
      rw [parenStripAux_cons] at h
      by_cases hc : (c == '(' && (c :: rest).getLast? == some ')') = true
      · rw [if_pos hc] at h
        exact ih _ _ h
      · rw [if_neg hc] at h
        exact absurd h (by simp)

lemma atonCore_ne_indexError (l : List Char) : atonCore l ≠ .error .indexError := by
  intro h
  unfold atonCore at h
  aesop

/-- C7, counterexample.  The claim states that for every input string
`aton` either returns a number or raises `FormatError` (`ValueError` in
the code) and that no out-of-bounds failure on empty or all-parenthesis
input is possible.  On the empty string, `s.strip()` leaves `s` empty and
the paren-stripping loop's `s[0]` raises `IndexError`. -/
theorem c7_counterexample :
    aton "" = .error .indexError ∧ PyErr.indexError ≠ PyErr.valueError := by
  exact ⟨by decide, by decide⟩

/-- C7, amended: `aton` strips surrounding whitespace and balanced outer
parentheses and then either returns a number or raises `ValueError` —
except that an `IndexError` escapes exactly when the paren-stripping loop
reaches an empty string, which happens on whitespace-only input and on
balanced parentheses enclosing nothing (`""`, `"  "`, `"()"`,
`"(())"`). -/
theorem c7_amended :
    (∀ s : String, aton s = .error .indexError ↔
      parenStrip (pyStrip s.data) = .error .indexError) ∧
    aton "()" = .error .indexError ∧ aton "  " = .error .indexError ∧
    aton "(())" = .error .indexError ∧ aton "abc" = .error .valueError ∧
    aton "(5)" = .ok (.int 5) := by
  refine ⟨?_, by decide, by decide, by decide, by decide, by decide⟩
  intro s
  constructor
  · intro hA
    unfold aton at hA
    cases hps : parenStrip (pyStrip s.data) with
    | error e =>
      rw [hps] at hA
      have hA' : (Except.error e : Except PyErr PyNum) = Except.error PyErr.indexError := hA
      have he : e = PyErr.indexError := by injection hA'
      rw [he]
    | ok l =>
      rw [hps] at hA
      have hA' : atonCore l = Except.error PyErr.indexError := hA
      exact absurd hA' (atonCore_ne_indexError l)
  · intro hps
    unfold aton
    rw [hps]

/-! ## Claim C3 -/

/-- C3, counterexample.  The claim states that every container whose
identity is already in the identity table is emitted as a self-closed
`refid` tag.  `_tag_compound` tests `if VISITED.get(idt):` — truthiness,
not presence — so an *empty* container that is already in the table is
re-emitted as a full tag with a fresh `id=`, and sharing of empty
containers is lost. -/
theorem c3_counterexample :
    (([2] : Table).contains 2 = true) ∧
    tagCompleter [(2, HVal.vlist [])] 2 [2] "<item " "</item>\n" 2 1 =
      .ok ("<item type=\"list\"" ++ " id=\"2\" >\n" ++ "" ++ "</item>\n", [2]) ∧
    ("<item type=\"list\"" ++ " id=\"2\" >\n" ++ "" ++ "</item>\n" : String) ≠
      "<item type=\"list\"" ++ " refid=\"2\" />\n" := by
  refine ⟨by decide, by decide, by decide⟩

/-- C3, amended: a container whose identity is already in the table *and
which is truthy (non-empty)* is emitted as a self-closed `refid` tag
without recursion, leaving the table unchanged; and for such shared
containers the decoder resolves both occurrences to the same instance
(both attributes of the decoded object below hold a reference to the same
store address 2). -/
theorem c3_amended :
    (∀ (hp : Heap) (σ : Table) (v : HVal) (ft startT closeT : String)
        (oid level fuel : Nat),
      hp.lookup oid = some v → compoundFt v = some ft → pyTruthy v = true →
      σ.contains oid = true →
      tagCompleter hp (fuel + 1) σ startT closeT oid level =
        .ok (startT ++ ft ++ " refid=\"" ++ natToStr oid ++ "\" />\n", σ)) ∧
    thing_from_dom ["C"] 6 (.mk "#document" [] "" [.mk "PyObject"
        [("module", "m"), ("class", "C"), ("id", "99")] ""
        [.mk "attr" [("name", "a"), ("type", "list"), ("id", "5")] ""
           [.mk "item" [("type", "numeric"), ("value", "1")] "" []],
         .mk "attr" [("name", "b"), ("type", "list"), ("refid", "5")] "" []]]) =
      .ok (.dref 0,
        ⟨[("99", .dref 0), ("5", .dref 2)],
         [(2, .slist [.dint 1]),
          (1, .sobj "_EmptyClass" [("a", .dref 2), ("b", .dref 2)]),
          (0, .sobj "C" [("a", .dref 2), ("b", .dref 2)])], 3⟩) := by
  constructor
  · intro hp σ v ft startT closeT oid level fuel hlook hft htr hcont
    cases v <;> simp only [compoundFt] at hft <;> try exact Option.noConfusion hft
    all_goals
      injection hft with hft
      subst hft
      simp only [pyTruthy] at htr
      simp only [tagCompleter, hlook, htr, hcont, Bool.and_self, if_true,
        insertV_of_contains σ oid hcont]
  · decide

/-- C3, witness for the amended theorem's universal part. -/
theorem c3_amended_witness :
    tagCompleter [(1, HVal.vlist [3])] 1 [1] "<item " "</item>\n" 1 0 =
      .ok ("<item " ++ "type=\"list\"" ++ " refid=\"" ++ natToStr 1 ++ "\" />\n", [1]) :=
  c3_amended.1 [(1, HVal.vlist [3])] [1] (HVal.vlist [3]) "type=\"list\"" "<item "
    "</item>\n" 1 0 0 (by decide) (by decide) (by decide) (by decide)

/-! ## Claim C4 -/

/-- C4, counterexample.  The claim states that the encoder registers a
tuple's identity before emitting its item children.  It does not: the
tuple branch of `_tag_completer` (lines 542-550) has no pre-registration,
unlike the list branch's line 557, so encoding a self-referential tuple
never takes the `refid` path and recurses until the recursion budget is
exhausted (`RecursionError` in the source, `outOfFuel` here, at every
budget), while the identically shaped self-referential list terminates
with an inner back-reference. -/
theorem c4_counterexample :
    tagCompleter [(1, HVal.vtuple [1])] 30 [] "<item " "</item>\n" 1 0 =
      .error .outOfFuel ∧
    tagCompleter [(1, HVal.vlist [1])] 30 [] "<item " "</item>\n" 1 0 =
      .ok ("<item type=\"list\"" ++ " id=\"1\" >\n" ++
        ("  <item " ++ "type=\"list\"" ++ " refid=\"1\" />\n") ++ "</item>\n", [1]) := by
  refine ⟨by decide, by decide⟩

/-- C4, amended: on the encode side lists and dicts are registered before
their item/entry children (a dict containing itself as a value encodes
with an inner `refid`), and a tuple only at completion (a tuple's identity
enters the table after its items': final table `[1, 2]` with the item 2
registered first); on the decode side a `seq` is registered under its `id`
before its items are parsed, so a self-referencing item resolves to the
enclosing list itself. -/
theorem c4_amended :
    tagCompleter [(1, HVal.vdict [(2, 1)]), (2, HVal.vstr "k")] 3 [] "<item "
        "</item>\n" 1 0 =
      .ok ("<item type=\"dict\"" ++ " id=\"1\" >\n" ++
        ("  <entry>\n" ++ ("    <key " ++ "type=\"string\" value=\"k\" />\n") ++
          ("    <val " ++ "type=\"dict\"" ++ " refid=\"1\" />\n") ++ "  </entry>\n") ++
        "</item>\n", [2, 1]) ∧
    tagCompleter [(1, HVal.vtuple [2]), (2, HVal.vint 5)] 3 [] "<item "
        "</item>\n" 1 0 =
      .ok ("<item type=\"tuple\"" ++ " id=\"1\" >\n" ++
        ("  <item " ++ "type=\"numeric\" value=\"5\" />\n") ++ "</item>\n", [1, 2]) ∧
    thingFromDom [] 3
        (.mk "wrap" [] "" [.mk "attr" [("name", "a"), ("type", "list"), ("id", "7")] ""
          [.mk "item" [("type", "list"), ("refid", "7")] "" []]])
        (.dref 0) ⟨[], [(0, .sobj "T" [])], 1⟩ =
      .ok (.dref 0,
        ⟨[("7", .dref 1)],
         [(1, .slist [.dref 1]), (0, .sobj "T" [("a", .dref 1)])], 2⟩) := by
  refine ⟨by decide, by decide, by decide⟩

/-! ## Claim C5 -/

/-- C5, counterexample.  The claim states that scalar values are never
entered into the identity table.  Line 582 of the source runs
`VISITED[id(orig_thing)] = orig_thing` unconditionally at the end of
`_tag_completer` — deliberately, per its comment, to keep temporaries
alive — so tagging the integer 7 (or `None`) leaves its identity in the
table. -/
theorem c5_counterexample :
    tagCompleter [(3, HVal.vint 7)] 1 [] "<item " "</item>\n" 3 0 =
      .ok ("<item " ++ "type=\"numeric\" value=\"7\" />\n", [3]) ∧
    (([3] : Table).contains 3 = true) ∧
    tagCompleter [(4, HVal.vnone)] 1 [] "<item " "</item>\n" 4 0 =
      .ok ("<item " ++ "type=\"None\" />\n", [4]) ∧
    (([4] : Table).contains 4 = true) := by
  refine ⟨by decide, by decide, by decide, by decide⟩

/-- C5, amended: *every* value `_tag_completer` finishes tagging — scalar
or compound — has its identity in the resulting table. -/
theorem c5_amended (hp : Heap) (fuel : Nat) (σ : Table) (startT closeT : String)
    (oid level : Nat) (out : String) (σ' : Table)
    (henc : tagCompleter hp fuel σ startT closeT oid level = .ok (out, σ')) :
    σ'.contains oid = true := by
  cases fuel with
  | zero => exact absurd henc (by simp [tagCompleter])
  | succ fuel =>
    simp only [tagCompleter] at henc
    repeat' split at henc
    all_goals
      first
      | exact Except.noConfusion henc
      | (simp only [Except.ok.injEq, Prod.mk.injEq] at henc
         exact henc.2 ▸ insertV_contains _ _)

/-- C5, witness for the amended theorem. -/
theorem c5_amended_witness : (([7] : Table).contains 7 = true) :=
  c5_amended [(7, HVal.vint 1)] 1 [] "<item " "</item>\n" 7 0
    ("<item " ++ "type=\"numeric\" value=\"1\" />\n") [7] (by decide)

/-! ## Claim C8 -/

/-- C8, counterexample.  The claim states that the decoder looks up the
*pair* `(module, class)` in the registry and fails exactly when that class
is absent.  The registry is keyed by class name alone
(`add_class_to_store(classname, klass)` records no module) and
`obj_from_node` reads only the `class` attribute, so a `PyObject` whose
`module` names nothing ever registered still decodes successfully. -/
theorem c8_counterexample :
    add_class_to_store [] "C" (some ()) = ["C"] ∧
    obj_from_node (add_class_to_store [] "C" (some ()))
        (.mk "PyObject" [("module", "totally.unregistered"), ("class", "C"), ("id", "9")]
          "" []) DecSt.empty =
      .ok (.dref 0, ⟨[], [(0, .sobj "C" [])], 1⟩) := by
  refine ⟨by decide, by decide⟩

/-- C8, amended: the decoder looks up the *class name alone* — two
`PyObject` nodes with equal `class` attributes behave identically under
`obj_from_node` whatever their `module` attributes — and raises
(`UnknownClassError`, a `ValueError` in the code) exactly when that class
name is unregistered; the fresh instance is allocated empty (the model's
factory builds a field-less instance, standing for `klass.__new__` with no
`__init__` call) and is registered under its `id` before the `attr`
children are parsed, so an attribute referring back to the object's own
id resolves to the object itself (field `"me"` below). -/
theorem c8_amended :
    (∀ (cs : ClassStore) (n1 n2 : XNode) (st : DecSt),
      getAttribute n1 "class" = getAttribute n2 "class" →
      obj_from_node cs n1 st = obj_from_node cs n2 st) ∧
    (∀ (cs : ClassStore) (n : XNode) (st : DecSt),
      obj_from_node cs n st = .error .unknownClass ↔
        cs.contains (getAttribute n "class") = false) ∧
    thing_from_dom ["C"] 6 (.mk "#document" [] "" [.mk "PyObject"
        [("module", "m"), ("class", "C"), ("id", "9")] ""
        [.mk "attr" [("name", "me"), ("type", "PyObject"), ("refid", "9")] "" []]]) =
      .ok (.dref 0,
        ⟨[("9", .dref 0)],
         [(1, .sobj "_EmptyClass" [("me", .dref 0)]), (0, .sobj "C" [("me", .dref 0)])],
         2⟩) := by
  refine ⟨?_, ?_, by decide⟩
  · intro cs n1 n2 st hcl
    unfold obj_from_node
    rw [hcl]
  · intro cs n st
    unfold obj_from_node
    cases hc : cs.contains (getAttribute n "class") <;> simp [hc] <;> simpa using hc

/-- C8, witness for the amended theorem's universal parts. -/
theorem c8_amended_witness :
    obj_from_node ["C"] (.mk "PyObject" [("module", "a"), ("class", "C")] "" [])
        DecSt.empty =
      obj_from_node ["C"] (.mk "PyObject" [("module", "b"), ("class", "C")] "" [])
        DecSt.empty ∧
    (obj_from_node ["C"] (.mk "PyObject" [("class", "D")] "" []) DecSt.empty =
        .error .unknownClass ↔
      (["C"] : ClassStore).contains "D" = false) :=
  ⟨c8_amended.1 ["C"] (.mk "PyObject" [("module", "a"), ("class", "C")] "" [])
      (.mk "PyObject" [("module", "b"), ("class", "C")] "" []) DecSt.empty (by decide),
    c8_amended.2.1 ["C"] (.mk "PyObject" [("class", "D")] "" []) DecSt.empty⟩

/-! ## Claim C9 -/

lemma pickle_instance_omit (h : Heap) (fuel : Nat) (om : List String) (level : Nat) :
    ∀ (fields : List (String × Nat)) (σ : Table),
      pickle_instance h fuel σ fields (some om) level =
        pickle_instance h fuel σ (fields.filter fun kv => !om.contains kv.1) none level := by
  intro fields
  induction fields with
  | nil => intro σ; rfl
  | cons kv rest ih =>
    intro σ
    obtain ⟨key, vid⟩ := kv
    by_cases hc : om.contains key = true
    · have hskip : (omitTruthy (some om) && omitHas (some om) key) = true := by
        cases om with
        | nil => simp at hc
        | cons a t =>
          simp only [omitTruthy, omitHas, List.isEmpty_cons, Bool.not_false, Bool.true_and]
          exact hc
      rw [List.filter_cons_of_neg (by simp only [Bool.not_eq_true]; simpa using hc)]
      show (if omitTruthy (some om) && omitHas (some om) key then
          pickle_instance h fuel σ rest (some om) level
        else
          match attrTag h fuel σ key vid level with
          | .error e => .error e
          | .ok (s1, σ1) =>
            match pickle_instance h fuel σ1 rest (some om) level with
            | .error e => .error e
            | .ok (s2, σ2) => .ok (s1 ++ s2, σ2)) = _
      rw [if_pos hskip]
      exact ih σ
    · have hc' : om.contains key = false := Bool.eq_false_iff.mpr hc
      have hskip : (omitTruthy (some om) && omitHas (some om) key) = false := by
        simp only [omitTruthy, omitHas]
        simp [hc']
        exact fun _ => by simpa using hc'
      rw [List.filter_cons_of_pos (by simpa using hc')]
      show (if omitTruthy (some om) && omitHas (some om) key then
          pickle_instance h fuel σ rest (some om) level
        else
          match attrTag h fuel σ key vid level with
          | .error e => .error e
          | .ok (s1, σ1) =>
            match pickle_instance h fuel σ1 rest (some om) level with
            | .error e => .error e
            | .ok (s2, σ2) => .ok (s1 ++ s2, σ2)) =
        (if omitTruthy none && omitHas none key then
          pickle_instance h fuel σ (rest.filter fun kv => !om.contains kv.1) none level
        else
          match attrTag h fuel σ key vid level with
          | .error e => .error e
          | .ok (s1, σ1) =>
            match pickle_instance h fuel σ1 (rest.filter fun kv => !om.contains kv.1)
                none level with
            | .error e => .error e
            | .ok (s2, σ2) => .ok (s1 ++ s2, σ2))
      rw [if_neg (by rw [hskip]; exact Bool.false_ne_true),
        if_neg (by simp [omitTruthy])]
      cases hat : attrTag h fuel σ key vid level with
      | error e => rfl
      | ok pair =>
        obtain ⟨s1, σ1⟩ := pair
        show (match pickle_instance h fuel σ1 rest (some om) level with
            | Except.error e => (Except.error e : Except EncErr (String × Table))
            | Except.ok (s2, σ2) => Except.ok (s1 ++ s2, σ2)) =
          (match pickle_instance h fuel σ1 (rest.filter fun kv => !om.contains kv.1)
              none level with
            | Except.error e => Except.error e
            | Except.ok (s2, σ2) => Except.ok (s1 ++ s2, σ2))
        rw [ih σ1]

/-- C9: exactly the top-level fields named in `omit_fields` are skipped.
`pickle_instance` on the root's fields with an omit list produces the same
text and table as running it with no omission on the fields filtered to
those not named, so an omitted field contributes nothing to the document,
every other field is emitted as its `attr` tag, and the encoding of the
kept fields (hence of everything nested inside them — `omit` is not
passed down into `_tag_completer`) is unchanged; the same equality holds
for the whole `xmldump` document. -/
theorem c9_omit_filter :
    (∀ (h : Heap) (fuel : Nat) (σ : Table) (fields : List (String × Nat))
        (om : List String) (level : Nat),
      pickle_instance h fuel σ fields (some om) level =
        pickle_instance h fuel σ (fields.filter fun kv => !om.contains kv.1)
          none level) ∧
    (∀ (h : Heap) (fuel : Nat) (module klassName : String) (oid : Nat)
        (fields : List (String × Nat)) (om : List String),
      xmldump h fuel ⟨module, klassName, oid, fields⟩ (some om) =
        xmldump h fuel ⟨module, klassName, oid, fields.filter fun kv => !om.contains kv.1⟩
          none) := by
  constructor
  · intro h fuel σ fields om level
    exact pickle_instance_omit h fuel om level fields σ
  · intro h fuel module klassName oid fields om
    simp only [xmldump]
    rw [pickle_instance_omit h fuel om 0 fields [oid]]

/-! ## Claim C10 -/

/-- C10: registering with an empty class name or without a factory is a
silent no-op.  `add_class_to_store` guards the assignment with
`if classname and klass:`, so either falsy argument leaves `CLASS_STORE`
unchanged (and the function raises nothing — it is total); a later decode
naming such a class still fails as unregistered, as `obj_from_node` on a
store built by a no-op registration shows. -/
theorem c10_register_noop :
    (∀ (cs : ClassStore) (k : Option Unit), add_class_to_store cs "" k = cs) ∧
    (∀ (cs : ClassStore) (n : String), add_class_to_store cs n none = cs) ∧
    add_class_to_store [] "Node" none = [] ∧
    obj_from_node (add_class_to_store [] "Node" none)
        (.mk "PyObject" [("class", "Node")] "" []) DecSt.empty =
      .error .unknownClass := by
  refine ⟨?_, ?_, by decide, by decide⟩
  · intro cs k
    simp [add_class_to_store]
    exact fun h => absurd h (by decide)
  · intro cs n
    simp [add_class_to_store]

end Nosis
